import Mathlib

/-!
Shallow embedding of `src/eth2/src/utils/mod.rs` (repository `thor314/imp`).

Bytes are modelled as `Nat` (values `< 256` where it matters), byte strings as
`List Nat`, machine integers as `Nat`.  A Rust function that can panic is
embedded as an `Option`-returning function whose `none` branch marks the panic
(out-of-bounds indexing, `unwrap`, `expect`).  Helper types that live in other
modules of this crate (`crate::types`, `crate::ssz`, `crate::libp2p`,
`crate::testnet`) are not under `src/`; they are modelled from the spec, each
with a doc comment saying so.
-/

namespace Imp

/-- `EnrForkId` (from `crate::types`): `fork_digest` (4 bytes),
`next_fork_version` (4 bytes), `next_fork_epoch` (`u64` epoch). -/
structure EnrForkId where
  fork_digest : List Nat
  next_fork_version : List Nat
  next_fork_epoch : Nat
  deriving DecidableEq

/-- `u64::max_value()`. -/
def U64_MAX : Nat := 2 ^ 64 - 1

/-- `get_default_fork_id`: the constant all-zero fork identity with the
far-future epoch sentinel. -/
def get_default_fork_id : EnrForkId :=
  { fork_digest := [0, 0, 0, 0]
    next_fork_version := [0, 0, 0, 0]
    next_fork_epoch := U64_MAX }

/-- `get_fork_id`: builds an `EnrForkId` by indexing positions 0..3 of both
input vectors.  The Rust code panics (out-of-bounds index) when either vector
has fewer than 4 bytes; `none` marks that panic branch. -/
def get_fork_id (fork_digest next_fork_version : List Nat)
    (next_fork_epoch : Nat) : Option EnrForkId :=
  match fork_digest, next_fork_version with
  | d0 :: d1 :: d2 :: d3 :: _, v0 :: v1 :: v2 :: v3 :: _ =>
      some { fork_digest := [d0, d1, d2, d3]
             next_fork_version := [v0, v1, v2, v3]
             next_fork_epoch := next_fork_epoch }
  | _, _ => none

/-- Modelled from the spec: the genesis state (`state.slot`,
`state.genesis_validators_root`) carried by a loaded testnet configuration;
`crate::testnet::config` is not under `src/`. -/
structure BeaconState where
  slot : Nat
  genesis_validators_root : Nat
  deriving DecidableEq

/-- Modelled from the spec: `Eth2TestnetConfig` (from
`crate::testnet::config`, not under `src/`), of which only the optional
`genesis_state` field is used here. -/
structure Eth2TestnetConfig where
  genesis_state : Option BeaconState
  deriving DecidableEq

/-- `load_testnet_config`: `Eth2TestnetConfig::load(testnet_dir).unwrap()`.
The load itself is external file I/O; its outcome enters as `loadResult`
(`none` = load error).  The `.unwrap()` turns a load error into a panic,
marked by the `none` result. -/
def load_testnet_config (loadResult : Option Eth2TestnetConfig) :
    Option Eth2TestnetConfig :=
  match loadResult with
  | some config => some config
  | none => none

/-- Modelled from the spec: `ChainSpec` (from `crate::types`, not under
`src/`); only `attestation_subnet_count` is used here. -/
structure ChainSpec where
  attestation_subnet_count : Nat
  deriving DecidableEq

/-- `get_chain_spec`: `ChainSpec::mainnet()`.  Modelled from the spec: the
mainnet attestation subnet count is the external constant 64. -/
def get_chain_spec : ChainSpec :=
  { attestation_subnet_count := 64 }

/-- `get_fork_id_from_dir`: on `Some` directory it loads the testnet config
(panic on load failure), unwraps `genesis_state` (panic when absent), and
evaluates the chain spec's fork schedule.  `ChainSpec::enr_fork_id` is not
under `src/`, so it enters as the function argument `enr_fork_id`.  The outer
`none` marks a panic; `some none` is the genuine `None` return. -/
def get_fork_id_from_dir (loadResult : Option Eth2TestnetConfig)
    (enr_fork_id : Nat → Nat → EnrForkId) (dir : Option Unit) :
    Option (Option EnrForkId) :=
  match dir with
  | some _ =>
      match load_testnet_config loadResult with
      | none => none
      | some config =>
          match config.genesis_state with
          | none => none
          | some state =>
              some (some (enr_fork_id state.slot state.genesis_validators_root))
  | none => some none

/-- Decode errors, as in the spec's error taxonomy. -/
inductive DecodeError where
  | WrongLength
  | Malformed
  deriving DecidableEq

/-- Little-endian unsigned integer from bytes. -/
def u64FromLeBytes (bs : List Nat) : Nat :=
  bs.foldr (fun b acc => b + 256 * acc) 0

/-- Modelled from the spec: `EnrForkId::from_ssz_bytes` (from `crate::ssz` /
`crate::types`, not under `src/`): input must be exactly 16 bytes, split into
`fork_digest` (4 bytes), `next_fork_version` (4 bytes), `next_fork_epoch`
(8-byte little-endian unsigned), in that order; any other length is a
`WrongLength` decode error. -/
def enrForkIdFromSszBytes (bytes : List Nat) : Except DecodeError EnrForkId :=
  if bytes.length = 16 then
    .ok { fork_digest := bytes.take 4
          next_fork_version := (bytes.drop 4).take 4
          next_fork_epoch := u64FromLeBytes ((bytes.drop 8).take 8) }
  else
    .error .WrongLength

/-- Modelled from the spec: a discovery record (`Enr`, external `discv5`
crate) exposing the named binary fields `"eth2"` and `"attnets"` through a
generic `get(key)` accessor. -/
structure Enr where
  eth2 : Option (List Nat)
  attnets : Option (List Nat)
  deriving DecidableEq

/-- `Enr::get(key)`: named-field lookup on the record. -/
def Enr.get (enr : Enr) (key : String) : Option (List Nat) :=
  if key = "eth2" then enr.eth2
  else if key = "attnets" then enr.attnets
  else none

/-- `get_fork_id_from_enr`: looks up the `"eth2"` field and SSZ-decodes it;
absence of the field or a decode error both yield `None`. -/
def get_fork_id_from_enr (enr : Enr) : Option EnrForkId :=
  match enr.get "eth2" with
  | some enr_fork_id =>
      match enrForkIdFromSszBytes enr_fork_id with
      | .ok fid => some fid
      | .error _ => none
  | none => none

/-- Modelled from the spec: `MainnetEthSpec::SubnetBitfieldLength`, the
network's configured subnet bitfield length (external constant 64). -/
def SubnetBitfieldLength : Nat := 64

/-- `BitVector` (from `crate::ssz::types`, not under `src/`): a fixed-length
sequence of bits. -/
structure BitVector where
  bits : List Bool
  deriving DecidableEq

/-- `BitVector::len`: the number of bits. -/
def BitVector.len (bv : BitVector) : Nat := bv.bits.length

/-- `BitVector::get(i)`: `Ok(bit i)` when `i` is in range, an error
otherwise; the error case is `none`. -/
def BitVector.get (bv : BitVector) (i : Nat) : Option Bool := bv.bits[i]?

/-- Bytes to bits, least-significant-bit first within each byte, as the
spec's bit-vector encoding requires. -/
def bytesToBits (bytes : List Nat) : List Bool :=
  (bytes.map (fun b => (List.range 8).map (fun j => Nat.testBit b j))).flatten

/-- Modelled from the spec: `BitVector::<N>::from_ssz_bytes` (from
`crate::ssz::types`, not under `src/`): the byte length must be exactly
`ceil(n / 8)` (no truncation, no padding tolerance), otherwise a
`WrongLength` decode error; bit `i` is the `i`-th bit, LSB-first. -/
def bitVectorFromSszBytes (n : Nat) (bytes : List Nat) :
    Except DecodeError BitVector :=
  if bytes.length = (n + 7) / 8 then
    .ok { bits := (bytesToBits bytes).take n }
  else
    .error .WrongLength

/-- `get_bitfield_from_enr`: looks up `"attnets"` (error string when absent)
and SSZ-decodes it as a `BitVector` of the configured length. -/
def get_bitfield_from_enr (enr : Enr) : Except String BitVector :=
  match enr.get "attnets" with
  | none => .error "ENR bitfield non-existent"
  | some bitfield_bytes =>
      match bitVectorFromSszBytes SubnetBitfieldLength bitfield_bytes with
      | .ok bv => .ok bv
      | .error _ => .error "Could not decode the ENR SSZ bitfield"

/-- `get_attnets_from_enr`: when the bitfield decodes and is non-empty,
iterates `i` over `0..=subnet_count` pushing every `i` whose bit access
returns `Ok(true)`; out-of-range accesses and unset bits are skipped.  Any
failure yields the empty list. -/
def get_attnets_from_enr (enr : Enr) : List Nat :=
  match get_bitfield_from_enr enr with
  | .error _ => []
  | .ok bitfield =>
      if 0 < bitfield.len then
        let subnet_count := get_chain_spec.attestation_subnet_count
        (List.range (subnet_count + 1)).filter
          (fun i =>
            match bitfield.get i with
            | some true => true
            | _ => false)
      else []

/-- Modelled from the spec: gossip message kinds (`GossipKind`, from
`crate::libp2p::types`, not under `src/`) — enumerated tags naming message
categories. -/
inductive GossipKind where
  | BeaconBlock
  | BeaconAggregateAndProof
  | VoluntaryExit
  | ProposerSlashing
  | AttesterSlashing
  | CommitteeIndexBeaconAttestation (subnet_id : Nat)
  deriving DecidableEq

/-- Modelled from the spec: the canonical name of each gossip kind. -/
def GossipKind.name : GossipKind → String
  | .BeaconBlock => "beacon_block"
  | .BeaconAggregateAndProof => "beacon_aggregate_and_proof"
  | .VoluntaryExit => "voluntary_exit"
  | .ProposerSlashing => "proposer_slashing"
  | .AttesterSlashing => "attester_slashing"
  | .CommitteeIndexBeaconAttestation subnet_id =>
      "committee_index" ++ toString subnet_id ++ "_beacon_attestation"

/-- Modelled from the spec: gossip wire encodings (`GossipEncoding`, from
`crate::libp2p::types`, not under `src/`). -/
inductive GossipEncoding where
  | SSZSnappy
  deriving DecidableEq

/-- `GossipEncoding::default()`. -/
def GossipEncoding.defaultEncoding : GossipEncoding := .SSZSnappy

/-- Modelled from the spec: the canonical suffix of each encoding. -/
def GossipEncoding.name : GossipEncoding → String
  | .SSZSnappy => "ssz_snappy"

/-- Lowercase hex digit of a value below 16. -/
def hexDigit (n : Nat) : Char :=
  if n < 10 then Char.ofNat (48 + n) else Char.ofNat (87 + n)

/-- Two lowercase hex digits of a byte. -/
def byteToHex (b : Nat) : String :=
  String.mk [hexDigit (b / 16), hexDigit (b % 16)]

/-- Lowercase hex rendering of a byte sequence. -/
def bytesToHex (bs : List Nat) : String :=
  String.join (bs.map byteToHex)

/-- `GossipTopic` (from `crate::libp2p::types`, not under `src/`): the
(kind, encoding, fork_digest) triple. -/
structure GossipTopic where
  kind : GossipKind
  encoding : GossipEncoding
  fork_digest : List Nat
  deriving DecidableEq

/-- `GossipTopic::new`. -/
def GossipTopic.new (kind : GossipKind) (encoding : GossipEncoding)
    (fork_digest : List Nat) : GossipTopic :=
  { kind := kind, encoding := encoding, fork_digest := fork_digest }

/-- Modelled from the spec: the rendered string form of a topic
(`String::from(topic)`, not under `src/`) — a fixed head, the hex rendering
of `fork_digest`, the kind's canonical name, and the encoding's canonical
suffix, slash-separated. -/
def GossipTopic.render (t : GossipTopic) : String :=
  "/eth2/" ++ bytesToHex t.fork_digest ++ "/" ++ t.kind.name ++ "/"
    ++ t.encoding.name

/-- `create_topic_ids`: builds one topic string per kind of the default
network configuration's topic list, pushing in input order.
`NetworkConfig::default().topics` is not under `src/`, so the kind list
enters as the `topics` argument. -/
def create_topic_ids (topics : List GossipKind) (enr_fork_id : EnrForkId) :
    List String :=
  topics.foldl
    (fun topic_ids kind =>
      topic_ids
        ++ [(GossipTopic.new kind GossipEncoding.defaultEncoding
              enr_fork_id.fork_digest).render])
    []

/-- `get_gossip_topic_id`: the single-kind topic string. -/
def get_gossip_topic_id (kind : GossipKind) (enr_fork_id : EnrForkId) :
    String :=
  (GossipTopic.new kind GossipEncoding.defaultEncoding
    enr_fork_id.fork_digest).render

/-- Key algorithm tags of the two supported public-key variants. -/
inductive KeyAlg where
  | Secp256k1
  | Ed25519
  deriving DecidableEq

/-- `CombinedPublicKey` (external `discv5` enr crate): the two-variant
tagged union over the supported algorithms.  Each key is represented by its
serialized bytes (compressed point for Secp256k1, raw 32 bytes for
Ed25519), the only view of the key that `into_peer_id` uses. -/
inductive CombinedPublicKey where
  | Secp256k1 (bytes : List Nat)
  | Ed25519 (bytes : List Nat)
  deriving DecidableEq

/-- The algorithm tag of a key. -/
def CombinedPublicKey.alg : CombinedPublicKey → KeyAlg
  | .Secp256k1 _ => .Secp256k1
  | .Ed25519 _ => .Ed25519

/-- The serialized bytes of a key. -/
def CombinedPublicKey.keyBytes : CombinedPublicKey → List Nat
  | .Secp256k1 bytes => bytes
  | .Ed25519 bytes => bytes

/-- `pk.serialize_compressed()`: the key is represented by exactly these
bytes. -/
def serialize_compressed (bytes : List Nat) : List Nat := bytes

/-- `pk.to_bytes()`: the raw Ed25519 key bytes. -/
def ed25519ToBytes (bytes : List Nat) : List Nat := bytes

/-- The libp2p public-key union built by `into_peer_id`. -/
inductive Libp2pPublicKey where
  | Secp256k1 (bytes : List Nat)
  | Ed25519 (bytes : List Nat)
  deriving DecidableEq

/-- Modelled from the spec: `libp2p_core::identity::secp256k1::PublicKey::decode`
(external crate) — succeeds exactly on a 33-byte compressed point. -/
def secp256k1Decode (bs : List Nat) : Option (List Nat) :=
  if bs.length = 33 then some bs else none

/-- Modelled from the spec: `libp2p_core::identity::ed25519::PublicKey::decode`
(external crate) — succeeds exactly on a raw 32-byte key. -/
def ed25519Decode (bs : List Nat) : Option (List Nat) :=
  if bs.length = 32 then some bs else none

/-- Modelled from the spec: `PeerId::from_public_key` (external crate) — a
deterministic, pure multihash construction over the algorithm tag and the
encoded key bytes; no randomness, no external state.  Represented as an
injective tagged encoding. -/
def peerIdFromPublicKey : Libp2pPublicKey → List Nat
  | .Secp256k1 bs => 0 :: bs
  | .Ed25519 bs => 1 :: bs

/-- `CombinedKeyPublicExt::into_peer_id`: dispatches on the key variant,
serializes, re-decodes into the libp2p key representation
(`.expect("valid public key")` panics on decode failure — `none` marks that
branch) and applies the peer-identifier construction. -/
def CombinedPublicKey.into_peer_id : CombinedPublicKey → Option (List Nat)
  | .Secp256k1 pk =>
      match secp256k1Decode (serialize_compressed pk) with
      | some libp2p_pk => some (peerIdFromPublicKey (.Secp256k1 libp2p_pk))
      | none => none
  | .Ed25519 pk =>
      match ed25519Decode (ed25519ToBytes pk) with
      | some libp2p_pk => some (peerIdFromPublicKey (.Ed25519 libp2p_pk))
      | none => none

/-! Helper lemmas (shared). -/

/-- A list of length at least 4 starts with four explicit elements. -/
lemma exists_four_head (l : List Nat) (h : 4 ≤ l.length) :
    ∃ a b c d t, l = a :: b :: c :: d :: t := by
  rcases l with _ | ⟨a, _ | ⟨b, _ | ⟨c, _ | ⟨d, t⟩⟩⟩⟩ <;>
    first
      | exact ⟨a, b, c, d, t, rfl⟩
      | (simp only [List.length_nil, List.length_cons] at h; omega)

/-- Pushing one rendered element per list element into an accumulator is a
map. -/
lemma foldl_push_eq_map (f : GossipKind → String) (l : List GossipKind) :
    ∀ acc : List String,
      l.foldl (fun topic_ids kind => topic_ids ++ [f kind]) acc
        = acc ++ l.map f := by
  induction l with
  | nil => intro acc; simp
  | cons k t ih => intro acc; simp [List.foldl, ih]

/-- The bit-test written as a match equals the boolean equality test. -/
lemma match_bit_eq_beq (o : Option Bool) :
    (match o with | some true => true | _ => false) = (o == some true) := by
  rcases o with _ | b
  · rfl
  · cases b <;> rfl

/-! Claim theorems. -/

/-- C7: `get_default_fork_id` is the fixed constant with all-zero
`fork_digest`, all-zero `next_fork_version` and `next_fork_epoch` equal to
`u64::MAX`; with no inputs, every call returns this identical value. -/
theorem default_fork_id_constant :
    get_default_fork_id =
      { fork_digest := [0, 0, 0, 0]
        next_fork_version := [0, 0, 0, 0]
        next_fork_epoch := 2 ^ 64 - 1 } := rfl

/-- C4: a record with no `"attnets"` field yields an empty subnet list from
`get_attnets_from_enr`, never an error. -/
theorem attnets_absent_empty (enr : Enr) (h : enr.get "attnets" = none) :
    get_attnets_from_enr enr = [] := by
  have hb : get_bitfield_from_enr enr = .error "ENR bitfield non-existent" := by
    simp [get_bitfield_from_enr, h]
  simp [get_attnets_from_enr, hb]

def enrNoAttnets : Enr := { eth2 := none, attnets := none }

/-- Witness for C4 at a concrete record with no `"attnets"` field. -/
theorem attnets_absent_empty_example :
    enrNoAttnets.get "attnets" = none
    ∧ get_attnets_from_enr enrNoAttnets = [] :=
  ⟨rfl, attnets_absent_empty enrNoAttnets rfl⟩

/-- C9: `get_fork_id` does no length validation: with both vectors of length
at least 4 it succeeds and uses exactly the first 4 bytes of each, ignoring
the rest; with either vector shorter than 4 the out-of-bounds indexing panic
branch (`none`) is reached. -/
theorem fork_id_takes_first_four (fd nfv : List Nat) (e : Nat) :
    (4 ≤ fd.length → 4 ≤ nfv.length →
      get_fork_id fd nfv e =
        some { fork_digest := fd.take 4
               next_fork_version := nfv.take 4
               next_fork_epoch := e })
    ∧ ((fd.length < 4 ∨ nfv.length < 4) → get_fork_id fd nfv e = none) := by
  constructor
  · intro h1 h2
    obtain ⟨a, b, c, d, t, rfl⟩ := exists_four_head fd h1
    obtain ⟨a2, b2, c2, d2, t2, rfl⟩ := exists_four_head nfv h2
    rfl
  · intro h
    rcases fd with _ | ⟨d0, _ | ⟨d1, _ | ⟨d2, _ | ⟨d3, fdr⟩⟩⟩⟩ <;>
      rcases nfv with _ | ⟨v0, _ | ⟨v1, _ | ⟨v2, _ | ⟨v3, nvr⟩⟩⟩⟩ <;>
        first
          | rfl
          | (simp only [List.length_nil, List.length_cons] at h; omega)

/-- Witness for C9: a 5-byte digest vector loses its fifth byte. -/
theorem fork_id_takes_first_four_example :
    get_fork_id [1, 2, 3, 4, 5] [6, 7, 8, 9] 10 =
      some { fork_digest := [1, 2, 3, 4]
             next_fork_version := [6, 7, 8, 9]
             next_fork_epoch := 10 } :=
  (fork_id_takes_first_four [1, 2, 3, 4, 5] [6, 7, 8, 9] 10).1
    (by decide) (by decide)

/-- C2 counterexample: `get_fork_id` reaches its panic branch (out-of-bounds
indexing, `none` in this embedding) on empty input vectors, so not every
error outcome of the listed operations is a recoverable value. -/
theorem get_fork_id_panics_on_short_input :
    get_fork_id [] [] 0 = none := rfl

/-- C2 amended: `get_fork_id` panics exactly when either input vector has
fewer than 4 bytes, and `get_fork_id_from_dir` (through
`load_testnet_config`) panics exactly when a directory is supplied and the
configuration load fails or carries no genesis state; on all other inputs
these operations return recoverable values. -/
theorem core_panic_characterization :
    (∀ (fd nfv : List Nat) (e : Nat),
        (get_fork_id fd nfv e).isSome = true ↔
          4 ≤ fd.length ∧ 4 ≤ nfv.length)
    ∧ (∀ (loadResult : Option Eth2TestnetConfig)
          (f : Nat → Nat → EnrForkId) (dir : Option Unit),
        (get_fork_id_from_dir loadResult f dir).isSome = true ↔
          (dir = none ∨
            ∃ c s, loadResult = some c ∧ c.genesis_state = some s)) := by
  constructor
  · intro fd nfv e
    constructor
    · intro h
      rcases fd with _ | ⟨d0, _ | ⟨d1, _ | ⟨d2, _ | ⟨d3, fdr⟩⟩⟩⟩ <;>
        rcases nfv with _ | ⟨v0, _ | ⟨v1, _ | ⟨v2, _ | ⟨v3, nvr⟩⟩⟩⟩ <;>
          simp_all [get_fork_id]
    · rintro ⟨h1, h2⟩
      obtain ⟨a, b, c, d, t, rfl⟩ := exists_four_head fd h1
      obtain ⟨a2, b2, c2, d2, t2, rfl⟩ := exists_four_head nfv h2
      rfl
  · intro loadResult f dir
    rcases dir with _ | u
    · simp [get_fork_id_from_dir]
    · rcases loadResult with _ | c
      · simp [get_fork_id_from_dir, load_testnet_config]
      · rcases c with ⟨_ | s⟩
        · simp [get_fork_id_from_dir, load_testnet_config]
        · constructor
          · intro _
            exact Or.inr ⟨⟨some s⟩, s, rfl, rfl⟩
          · intro _
            rfl

/-- Witness for C2 (amended): `get_fork_id` succeeds on two 4-byte vectors. -/
theorem core_panic_characterization_example :
    (get_fork_id [1, 1, 1, 1] [2, 2, 2, 2] 0).isSome = true :=
  (core_panic_characterization.1 [1, 1, 1, 1] [2, 2, 2, 2] 0).mpr
    ⟨by decide, by decide⟩

/-- C3: when the `"eth2"` field is present, `get_fork_id_from_enr` succeeds
exactly on byte sequences of length 16 and returns `none` (a decode failure,
not a fork identity) on every other length. -/
theorem fork_id_decode_length (enr : Enr) (bytes : List Nat)
    (h : enr.get "eth2" = some bytes) :
    ((get_fork_id_from_enr enr).isSome = true ↔ bytes.length = 16)
    ∧ (bytes.length ≠ 16 → get_fork_id_from_enr enr = none) := by
  have hunf : get_fork_id_from_enr enr =
      match enrForkIdFromSszBytes bytes with
      | .ok fid => some fid
      | .error _ => none := by
    simp [get_fork_id_from_enr, h]
  constructor
  · rw [hunf]
    unfold enrForkIdFromSszBytes
    by_cases hl : bytes.length = 16 <;> simp [hl]
  · intro hl
    rw [hunf]
    unfold enrForkIdFromSszBytes
    simp [hl]

def enrForkIdExample : Enr :=
  { eth2 := some [1, 2, 3, 4, 5, 6, 7, 8, 9, 0, 0, 0, 0, 0, 0, 0]
    attnets := none }

/-- Witness for C3: a concrete record with a 16-byte `"eth2"` field decodes. -/
theorem fork_id_decode_length_example :
    (get_fork_id_from_enr enrForkIdExample).isSome = true :=
  (fork_id_decode_length enrForkIdExample
      [1, 2, 3, 4, 5, 6, 7, 8, 9, 0, 0, 0, 0, 0, 0, 0] rfl).1.mpr (by decide)

/-- C5: when the `"attnets"` field is present, `get_bitfield_from_enr`
succeeds exactly when the field's byte length equals
`ceil(SubnetBitfieldLength / 8)`, and fails with the length-error message on
every other byte length. -/
theorem bitfield_decode_length (enr : Enr) (bytes : List Nat)
    (h : enr.get "attnets" = some bytes) :
    ((get_bitfield_from_enr enr).isOk = true ↔
      bytes.length = (SubnetBitfieldLength + 7) / 8)
    ∧ (bytes.length ≠ (SubnetBitfieldLength + 7) / 8 →
        get_bitfield_from_enr enr =
          .error "Could not decode the ENR SSZ bitfield") := by
  have hunf : get_bitfield_from_enr enr =
      match bitVectorFromSszBytes SubnetBitfieldLength bytes with
      | .ok bv => .ok bv
      | .error _ => .error "Could not decode the ENR SSZ bitfield" := by
    simp [get_bitfield_from_enr, h]
  constructor
  · rw [hunf]
    unfold bitVectorFromSszBytes
    by_cases hl : bytes.length = (SubnetBitfieldLength + 7) / 8 <;>
      simp [hl, Except.isOk, Except.toBool]
  · intro hl
    rw [hunf]
    unfold bitVectorFromSszBytes
    simp [hl]

def enrBitfieldExample : Enr :=
  { eth2 := none, attnets := some [255, 0, 255, 0, 255, 0, 255, 0] }

/-- Witness for C5: a concrete 8-byte `"attnets"` field decodes. -/
theorem bitfield_decode_length_example :
    (get_bitfield_from_enr enrBitfieldExample).isOk = true :=
  (bitfield_decode_length enrBitfieldExample
      [255, 0, 255, 0, 255, 0, 255, 0] rfl).1.mpr (by decide)

/-- C6: peer-identifier derivation is deterministic: two keys with the same
algorithm tag and the same key bytes derive byte-identical peer
identifiers; the embedding is a pure function with no randomness or
external state. -/
theorem peer_id_deterministic (k1 k2 : CombinedPublicKey)
    (halg : k1.alg = k2.alg) (hbytes : k1.keyBytes = k2.keyBytes) :
    k1.into_peer_id = k2.into_peer_id := by
  cases k1 <;> cases k2 <;>
    simp_all [CombinedPublicKey.alg, CombinedPublicKey.keyBytes]

def secpKeyExample : CombinedPublicKey :=
  .Secp256k1 (2 :: List.replicate 32 7)

/-- Witness for C6: derivation from a concrete 33-byte compressed key twice
gives the same identifier. -/
theorem peer_id_deterministic_example :
    secpKeyExample.into_peer_id = secpKeyExample.into_peer_id
    ∧ secpKeyExample.into_peer_id = some (0 :: 2 :: List.replicate 32 7) :=
  ⟨peer_id_deterministic secpKeyExample secpKeyExample rfl rfl, by decide⟩

/-- C8: `create_topic_ids` maps single-topic construction
(`get_gossip_topic_id`, with the default encoding) over the supplied kind
list in order: an empty list yields an empty list, N kinds yield N strings
in the same order, and each string differs only in its kind segment. -/
theorem topic_ids_map (topics : List GossipKind) (fid : EnrForkId) :
    create_topic_ids topics fid =
      topics.map (fun k => get_gossip_topic_id k fid)
    ∧ (create_topic_ids topics fid).length = topics.length
    ∧ create_topic_ids [] fid = []
    ∧ create_topic_ids topics fid =
        topics.map (fun k =>
          "/eth2/" ++ bytesToHex fid.fork_digest ++ "/" ++ k.name ++ "/"
            ++ "ssz_snappy") := by
  have hmap : create_topic_ids topics fid =
      topics.map (fun k => get_gossip_topic_id k fid) := by
    unfold create_topic_ids get_gossip_topic_id
    simpa using
      foldl_push_eq_map
        (fun k =>
          (GossipTopic.new k GossipEncoding.defaultEncoding
            fid.fork_digest).render)
        topics []
  refine ⟨hmap, ?_, rfl, ?_⟩
  · rw [hmap, List.length_map]
  · rw [hmap]
    rfl

def fidZero : EnrForkId :=
  { fork_digest := [0, 0, 0, 0]
    next_fork_version := [0, 0, 0, 0]
    next_fork_epoch := 0 }

/-- Witness for C8 at a concrete one-kind list and the zero digest. -/
theorem topic_ids_map_example :
    create_topic_ids [GossipKind.BeaconBlock] fidZero =
      [get_gossip_topic_id GossipKind.BeaconBlock fidZero]
    ∧ get_gossip_topic_id GossipKind.BeaconBlock fidZero =
        "/eth2/00000000/beacon_block/ssz_snappy" :=
  ⟨(topic_ids_map [GossipKind.BeaconBlock] fidZero).1, by decide⟩

/-- C10: topic construction depends only on `fork_digest`: fork identities
with equal digests give identical topic lists and identical single-topic
strings for every kind, whatever their `next_fork_version` and
`next_fork_epoch`. -/
theorem topics_depend_only_on_digest (fid1 fid2 : EnrForkId)
    (topics : List GossipKind) (kind : GossipKind)
    (h : fid1.fork_digest = fid2.fork_digest) :
    create_topic_ids topics fid1 = create_topic_ids topics fid2
    ∧ get_gossip_topic_id kind fid1 = get_gossip_topic_id kind fid2 := by
  constructor
  · unfold create_topic_ids
    rw [h]
  · unfold get_gossip_topic_id
    rw [h]

def fidA : EnrForkId :=
  { fork_digest := [1, 2, 3, 4]
    next_fork_version := [0, 0, 0, 0]
    next_fork_epoch := 0 }

def fidB : EnrForkId :=
  { fork_digest := [1, 2, 3, 4]
    next_fork_version := [9, 9, 9, 9]
    next_fork_epoch := 12345 }

/-- Witness for C10: two identities equal only in their digest give the same
topics. -/
theorem topics_depend_only_on_digest_example :
    create_topic_ids [GossipKind.VoluntaryExit] fidA =
      create_topic_ids [GossipKind.VoluntaryExit] fidB
    ∧ get_gossip_topic_id GossipKind.VoluntaryExit fidA =
        get_gossip_topic_id GossipKind.VoluntaryExit fidB :=
  topics_depend_only_on_digest fidA fidB [GossipKind.VoluntaryExit]
    GossipKind.VoluntaryExit rfl

/-- C1: when the `"attnets"` bitfield decodes and is non-empty,
`get_attnets_from_enr` filters the inclusive index range
`0..=subnet_count`, treats any access past the bitfield length as absent
(not an error), and returns exactly the set bit indices, in ascending order
with no duplicates. -/
theorem attnets_enumeration (enr : Enr) (bv : BitVector)
    (hok : get_bitfield_from_enr enr = .ok bv) (hne : 0 < bv.len) :
    get_attnets_from_enr enr =
      (List.range (get_chain_spec.attestation_subnet_count + 1)).filter
        (fun i => bv.get i == some true)
    ∧ (∀ i : Nat,
        i ∈ get_attnets_from_enr enr ↔
          i ≤ get_chain_spec.attestation_subnet_count ∧ bv.get i = some true)
    ∧ (∀ i : Nat, bv.len ≤ i → bv.get i = none)
    ∧ List.Sorted (· < ·) (get_attnets_from_enr enr)
    ∧ (get_attnets_from_enr enr).Nodup := by
  have hmain : get_attnets_from_enr enr =
      (List.range (get_chain_spec.attestation_subnet_count + 1)).filter
        (fun i => bv.get i == some true) := by
    simp only [get_attnets_from_enr, hok]
    rw [if_pos hne]
    exact List.filter_congr (fun i _ => match_bit_eq_beq (bv.get i))
  refine ⟨hmain, ?_, ?_, ?_, ?_⟩
  · intro i
    rw [hmain, List.mem_filter, List.mem_range, Nat.lt_succ_iff, beq_iff_eq]
  · intro i h
    exact List.getElem?_eq_none h
  · rw [hmain]
    exact List.Pairwise.filter _ (List.pairwise_lt_range _)
  · rw [hmain]
    exact List.Pairwise.imp (fun hlt => Nat.ne_of_lt hlt)
      (List.Pairwise.filter _ (List.pairwise_lt_range _))

def attnetsBytesExample : List Nat := [33, 0, 0, 0, 0, 0, 0, 128]

def enrAttnetsExample : Enr :=
  { eth2 := none, attnets := some attnetsBytesExample }

def bvAttnetsExample : BitVector :=
  { bits := (bytesToBits attnetsBytesExample).take 64 }

/-- Witness for C1: bits set at {0, 5, 63} with subnet count 64 enumerate to
exactly `[0, 5, 63]`. -/
theorem attnets_enumeration_example :
    get_bitfield_from_enr enrAttnetsExample = .ok bvAttnetsExample
    ∧ 0 < bvAttnetsExample.len
    ∧ get_attnets_from_enr enrAttnetsExample = [0, 5, 63] :=
  ⟨rfl, by decide, by
    rw [(attnets_enumeration enrAttnetsExample bvAttnetsExample rfl
      (by decide)).1]
    decide⟩

end Imp
